import Mathlib

/-!
Verification of the frame-acquisition/encode/packetize loop of
opendlv-video-h264-encoder (src/opendlv-video-h264-encoder.cpp),
as a shallow embedding in Lean.

Bytes are modelled as `Nat`, buffers as `List Nat`, the engine's
layered bitstream output as lists of layers, each layer carrying the
NAL length table `pNalLengthInByte` and the bitstream buffer `pBsBuf`.
-/

namespace OpendlvH264

/-- Rate-control modes of the openh264 engine (subset of its RC_MODES). -/
inductive RCMode
  | rcQualityMode
  | rcBitrateMode
  | rcBufferbasedMode
  | rcOffMode
deriving DecidableEq

/-- Parameter-set id strategies of the openh264 engine (EParameterSetStrategy). -/
inductive ParameterSetStrategy
  | constantId
  | increasingId
  | spsListing
deriving DecidableEq

/-- Slice modes of the openh264 engine (subset of SliceModeEnum). -/
inductive SliceMode
  | smSingleSlice
  | smFixedslcnumSlice
  | smSizelimitedSlice
deriving DecidableEq

/-- The validated configuration handed to the core by the CLI layer
(lines 46-51 of the source): name, width, height, optional gop argument,
verbose flag.  `gopArg = none` models an absent or empty `--gop` argument. -/
structure Config where
  name : String
  width : Nat
  height : Nat
  gopArg : Option Nat
  verbose : Bool
deriving DecidableEq

/-- `const uint32_t GOP_DEFAULT{10};` (line 49). -/
def GOP_DEFAULT : Nat := 10

/-- `const uint32_t GOP{(commandlineArguments["gop"].size() != 0) ?
... : GOP_DEFAULT};` (line 50). -/
def GOP (cfg : Config) : Nat :=
  match cfg.gopArg with
  | some g => g
  | none => GOP_DEFAULT

/-- The per-spatial-layer configuration fields set by the source
(lines 94-100), openh264's SSpatialLayerConfig. -/
structure SSpatialLayerConfig where
  iVideoWidth : Nat
  iVideoHeight : Nat
  fFrameRate : Nat
  iSpatialBitrate : Nat
  iMaxSpatialBitrate : Nat
  uiSliceMode : SliceMode
  uiSliceNum : Nat
deriving DecidableEq

/-- The encoder parameter fields set by the source (lines 72-100),
openh264's SEncParamExt restricted to the fields the program assigns. -/
structure SEncParamExt where
  fMaxFrameRate : Nat
  iPicWidth : Nat
  iPicHeight : Nat
  iTargetBitrate : Nat
  iMaxBitrate : Nat
  iRCMode : RCMode
  iTemporalLayerNum : Nat
  iSpatialLayerNum : Nat
  bEnableAdaptiveQuant : Bool
  bEnableBackgroundDetection : Bool
  bEnableDenoise : Bool
  bEnableFrameSkip : Bool
  bEnableLongTermReference : Bool
  iLtrMarkPeriod : Nat
  uiIntraPeriod : Nat
  eSpsPpsIdStrategy : ParameterSetStrategy
  bPrefixNalAddingCtrl : Bool
  iLoopFilterDisableIdc : Nat
  iEntropyCodingModeFlag : Nat
  iMultipleThreadIdc : Nat
  sSpatialLayers0 : SSpatialLayerConfig
deriving DecidableEq

/-- The parameter block the program builds (lines 72-100 of the source),
field by field.  Boolean engine flags assigned `1`/`0` in C are modelled
as `true`/`false`. -/
def parameters (cfg : Config) : SEncParamExt :=
  { fMaxFrameRate := 20
    iPicWidth := cfg.width
    iPicHeight := cfg.height
    iTargetBitrate := 2500000
    iMaxBitrate := 5000000
    iRCMode := RCMode.rcQualityMode
    iTemporalLayerNum := 1
    iSpatialLayerNum := 1
    bEnableAdaptiveQuant := true
    bEnableBackgroundDetection := true
    bEnableDenoise := false
    bEnableFrameSkip := false
    bEnableLongTermReference := false
    iLtrMarkPeriod := 30
    uiIntraPeriod := GOP cfg
    eSpsPpsIdStrategy := ParameterSetStrategy.constantId
    bPrefixNalAddingCtrl := false
    iLoopFilterDisableIdc := 0
    iEntropyCodingModeFlag := 0
    iMultipleThreadIdc := 1
    sSpatialLayers0 :=
      { iVideoWidth := cfg.width
        iVideoHeight := cfg.height
        fFrameRate := 20
        iSpatialBitrate := 2500000
        iMaxSpatialBitrate := 5000000
        uiSliceMode := SliceMode.smSizelimitedSlice
        uiSliceNum := 1 } }

/-- The strides the program writes into `sourceFrame.iStride` (lines 132-134):
`WIDTH`, `WIDTH/2`, `WIDTH/2`. -/
def planeStrides (W : Nat) : Nat × Nat × Nat := (W, W / 2, W / 2)

/-- The offsets into the raw buffer at which the program points
`sourceFrame.pData[0..2]` (lines 135-137): `0`, `W*H`, `W*H + ((W*H) >> 2)`. -/
def planeOffsets (W H : Nat) : Nat × Nat × Nat :=
  (0, W * H, W * H + ((W * H) >>> 2))

/-- Frame classifications returned by the engine (openh264's EVideoFrameType). -/
inductive EFrameType
  | videoFrameTypeInvalid
  | videoFrameTypeIDR
  | videoFrameTypeI
  | videoFrameTypeP
  | videoFrameTypeSkip
  | videoFrameTypeIPMixed
deriving DecidableEq

/-- One layer of the engine's bitstream output (openh264's SLayerBSInfo):
the NAL length table and the layer's bitstream buffer.  `iNalCount` is
`pNalLengthInByte.length`; `pBsBuf` is the engine-owned byte buffer in
which the layer's NAL units lie contiguously. -/
structure SLayerBSInfo where
  pNalLengthInByte : List Nat
  pBsBuf : List Nat
deriving DecidableEq

/-- The engine's per-frame output (openh264's SFrameBSInfo): frame type and
the layer list.  `iLayerNum` is `sLayerInfo.length`. -/
structure SFrameBSInfo where
  eFrameType : EFrameType
  sLayerInfo : List SLayerBSInfo
deriving DecidableEq

/-- openh264's `cmResultSuccess` return code. -/
def cmResultSuccess : Nat := 0

/-- One `EncodeFrame` call's outcome: the numeric return code `result`
(line 139) together with the filled-in `frameInfo`. -/
structure EncodeOutcome where
  result : Nat
  frameInfo : SFrameBSInfo
deriving DecidableEq

/-- `int sizeOfLayer` as accumulated by the inner loop over
`pNalLengthInByte` (lines 147-150): the sum of the layer's NAL lengths. -/
def sizeOfLayer (l : SLayerBSInfo) : Nat := l.pNalLengthInByte.sum

/-- The total of all layers' sizes, as accumulated in `totalSize`
(lines 145-153). -/
def totalSize (layers : List SLayerBSInfo) : Nat :=
  (layers.map sizeOfLayer).sum

/-- `memcpy(&buf[offset], src, src.length)` on a byte list: overwrite
`src.length` bytes of `buf` starting at `offset`.  Faithful to C when the
write is in bounds (`offset + src.length ≤ buf.length`); the C program has
undefined behaviour otherwise. -/
def memcpyList (buf : List Nat) (offset : Nat) (src : List Nat) : List Nat :=
  buf.take offset ++ src ++ buf.drop (offset + src.length)

/-- The `sizeOfLayer` bytes `memcpy` reads from the layer's `pBsBuf`
(line 151). -/
def layerChunk (l : SLayerBSInfo) : List Nat :=
  l.pBsBuf.take (sizeOfLayer l)

/-- One pass of the outer layer loop (lines 146-153): copy the layer's
first `sizeOfLayer` bytes into the scratch buffer at offset `totalSize`,
then advance `totalSize`. -/
def assembleStep (acc : List Nat × Nat) (l : SLayerBSInfo) : List Nat × Nat :=
  (memcpyList acc.1 acc.2 (layerChunk l), acc.2 + sizeOfLayer l)

/-- The whole layer loop (lines 145-153): fold `assembleStep` over the
layers starting from the scratch buffer and `totalSize = 0`; returns the
written-to buffer and the final `totalSize`. -/
def assembleLayers (buf : List Nat) (layers : List SLayerBSInfo) : List Nat × Nat :=
  layers.foldl assembleStep (buf, 0)

/-- `h264Buffer.resize(WIDTH * HEIGHT, char(48))` (lines 108-109): the scratch
buffer at initialization, `W*H` bytes each holding the byte 48. -/
def h264BufferInit (W H : Nat) : List Nat :=
  List.replicate (W * H) 48

/-- The segments of a bitstream buffer cut at the given NAL lengths: the
individual NAL payloads that the length table `pNalLengthInByte` describes
inside `pBsBuf`. -/
def nalSplit : List Nat → List Nat → List (List Nat)
  | [], _ => []
  | n :: ns, bs => bs.take n :: nalSplit ns (bs.drop n)

/-- The NAL payloads of one layer: `pBsBuf` cut at `pNalLengthInByte`. -/
def nalPayloads (l : SLayerBSInfo) : List (List Nat) :=
  nalSplit l.pNalLengthInByte l.pBsBuf

/-- The body of one loop iteration between `lock` and `unlock`
(lines 119-163), given the encode outcome: returns the pair
(`h264DataForImageReading`, updated `h264Buffer`).  The string is cleared
at the top of the iteration (line 119); on engine error or on a Skip
classification nothing is assembled; otherwise the layer loop runs and,
when `0 < totalSize`, the first `totalSize` bytes of the scratch buffer
become the published string (line 155). -/
def iterationData (o : EncodeOutcome) (buf : List Nat) : List Nat × List Nat :=
  if o.result = cmResultSuccess then
    if o.frameInfo.eFrameType = EFrameType.videoFrameTypeSkip then ([], buf)
    else
      let r := assembleLayers buf o.frameInfo.sLayerInfo
      (if 0 < r.2 then r.1.take r.2 else [], r.1)
  else ([], buf)

/-- The `opendlv::proxy::ImageReading` record the program publishes
(lines 166-167). -/
structure ImageReading where
  format : String
  width : Nat
  height : Nat
  data : List Nat
deriving DecidableEq

/-- The publish decision of one iteration (lines 165-169): send an
`ImageReading` with format "h264", the configured width and height and the
assembled bytes, only when `h264DataForImageReading` is non-empty. -/
def iterationPublish (W H : Nat) (o : EncodeOutcome) (buf : List Nat) :
    Option ImageReading :=
  let d := (iterationData o buf).1
  if d = [] then none
  else some { format := "h264", width := W, height := H, data := d }

/-- Observable events of the loop body, in source order. -/
inductive Event
  | waitEv
  | lockEv
  | encodeEv
  | unlockEv
  | publishEv
deriving DecidableEq

/-- The event trace of one loop iteration, read off the straight-line body
(lines 116-169): `wait` (117), `lock` (120), `EncodeFrame` (139),
`unlock` (163), then the publish, emitted only when the assembled data is
non-empty (165-169). -/
def iterEvents (W H : Nat) (o : EncodeOutcome) (buf : List Nat) : List Event :=
  [Event.waitEv, Event.lockEv, Event.encodeEv, Event.unlockEv] ++
    (match iterationPublish W H o buf with
     | some _ => [Event.publishEv]
     | none => [])

/-- The inputs one iteration of the while loop reads from its environment:
the `sharedMemory->valid()` flag and `od4.isRunning()` flag sampled by the
loop condition (line 115), and the outcome the engine returns for the frame
delivered by this cycle's `wait()`. -/
structure IterInput where
  valid : Bool
  running : Bool
  outcome : EncodeOutcome
deriving DecidableEq

/-- The while loop (lines 115-170) over a stream of iteration inputs:
at each cycle the condition `valid && running` is tested; when it holds the
iteration body runs (emitting its events and updating the scratch buffer),
otherwise the loop terminates immediately, emitting nothing further. -/
def runLoop (W H : Nat) : List IterInput → List Nat → List Event
  | [], _ => []
  | i :: rest, buf =>
    if i.valid && i.running then
      iterEvents W H i.outcome buf ++
        runLoop W H rest (iterationData i.outcome buf).2
    else []

/-! Helper lemmas. -/

lemma totalSize_nil : totalSize [] = 0 := rfl

lemma totalSize_cons (l : SLayerBSInfo) (ls : List SLayerBSInfo) :
    totalSize (l :: ls) = sizeOfLayer l + totalSize ls := by
  simp [totalSize]

lemma totalSize_append (xs ys : List SLayerBSInfo) :
    totalSize (xs ++ ys) = totalSize xs + totalSize ys := by
  simp [totalSize]

lemma drop_append_ge (l₁ l₂ : List Nat) (n : Nat) (h : l₁.length ≤ n) :
    (l₁ ++ l₂).drop n = l₂.drop (n - l₁.length) := by
  induction l₁ generalizing n with
  | nil => simp
  | cons a as ih =>
      cases n with
      | zero => simp at h
      | succ m =>
          simp only [List.cons_append, List.drop_succ_cons, List.length_cons]
          rw [ih m (by simpa using h)]
          congr 1
          omega

lemma take_add_split (m n : Nat) (xs : List Nat) :
    xs.take (m + n) = xs.take m ++ (xs.drop m).take n := by
  induction m generalizing xs with
  | zero => simp
  | succ k ih =>
      cases xs with
      | nil => simp
      | cons a as => simp [Nat.succ_add, ih]

lemma nalSplit_flatten (ns bs : List Nat) :
    (nalSplit ns bs).flatten = bs.take ns.sum := by
  induction ns generalizing bs with
  | nil => simp [nalSplit]
  | cons n ns ih => simp [nalSplit, ih, List.sum_cons, take_add_split]

lemma layerChunk_length (l : SLayerBSInfo)
    (h : sizeOfLayer l ≤ l.pBsBuf.length) :
    (layerChunk l).length = sizeOfLayer l := by
  simp [layerChunk, List.length_take, Nat.min_eq_left h]

lemma nalPayloads_flatten (l : SLayerBSInfo) :
    (nalPayloads l).flatten = layerChunk l := by
  simp [nalPayloads, layerChunk, sizeOfLayer, nalSplit_flatten]

lemma chunks_flatten_length (layers : List SLayerBSInfo)
    (hchunk : ∀ l ∈ layers, sizeOfLayer l ≤ l.pBsBuf.length) :
    ((layers.map layerChunk).flatten).length = totalSize layers := by
  induction layers with
  | nil => simp [totalSize]
  | cons l ls ih =>
      have h1 := layerChunk_length l (hchunk l (by simp))
      have h2 := ih (fun x hx => hchunk x (by simp [hx]))
      simp [totalSize_cons, h1, h2]

/-- The layer loop, started at offset `off` in a buffer large enough for
all remaining layers, overwrites exactly the bytes from `off` to
`off + totalSize layers` with the layers' chunks, in order, and returns
`off + totalSize layers` as the new offset. -/
lemma assembleLayers_spec (layers : List SLayerBSInfo) (buf : List Nat)
    (off : Nat)
    (hchunk : ∀ l ∈ layers, sizeOfLayer l ≤ l.pBsBuf.length)
    (hb : off + totalSize layers ≤ buf.length) :
    layers.foldl assembleStep (buf, off) =
      (buf.take off ++ (layers.map layerChunk).flatten ++
         buf.drop (off + totalSize layers),
       off + totalSize layers) := by
  induction layers generalizing buf off with
  | nil => simp [totalSize]
  | cons l ls ih =>
      have hsz : sizeOfLayer l ≤ l.pBsBuf.length := hchunk l (by simp)
      have hclen : (layerChunk l).length = sizeOfLayer l := layerChunk_length l hsz
      have htot : totalSize (l :: ls) = sizeOfLayer l + totalSize ls :=
        totalSize_cons l ls
      have hoff : off + sizeOfLayer l ≤ buf.length := by omega
      have hofflt : off ≤ buf.length := by omega
      have hpre : (buf.take off ++ layerChunk l).length = off + sizeOfLayer l := by
        rw [List.length_append, List.length_take, hclen, Nat.min_eq_left hofflt]
      have hbstep : assembleStep (buf, off) l =
          ((buf.take off ++ layerChunk l) ++ buf.drop (off + sizeOfLayer l),
           off + sizeOfLayer l) := by
        simp [assembleStep, memcpyList, hclen]
      have hblen : ((buf.take off ++ layerChunk l) ++
          buf.drop (off + sizeOfLayer l)).length = buf.length := by
        rw [List.length_append, hpre, List.length_drop]
        omega
      have hb2 : (off + sizeOfLayer l) + totalSize ls ≤
          ((buf.take off ++ layerChunk l) ++
            buf.drop (off + sizeOfLayer l)).length := by
        rw [hblen]; omega
      have ihx := ih ((buf.take off ++ layerChunk l) ++
          buf.drop (off + sizeOfLayer l)) (off + sizeOfLayer l)
        (fun x hx => hchunk x (List.mem_cons_of_mem l hx)) hb2
      have htake : ((buf.take off ++ layerChunk l) ++
          buf.drop (off + sizeOfLayer l)).take (off + sizeOfLayer l) =
            buf.take off ++ layerChunk l :=
        List.take_left' hpre
      have hdrop : ((buf.take off ++ layerChunk l) ++
          buf.drop (off + sizeOfLayer l)).drop
            (off + sizeOfLayer l + totalSize ls) =
          buf.drop (off + sizeOfLayer l + totalSize ls) := by
        rw [drop_append_ge _ _ _ (by rw [hpre]; omega), hpre, List.drop_drop]
        congr 1
        omega
      calc (l :: ls).foldl assembleStep (buf, off)
          = ls.foldl assembleStep (assembleStep (buf, off) l) := rfl
        _ = ls.foldl assembleStep
              ((buf.take off ++ layerChunk l) ++ buf.drop (off + sizeOfLayer l),
               off + sizeOfLayer l) := by rw [hbstep]
        _ = (buf.take off ++ ((l :: ls).map layerChunk).flatten ++
               buf.drop (off + totalSize (l :: ls)),
             off + totalSize (l :: ls)) := by
              rw [ihx, htake, hdrop]
              simp only [htot, List.map_cons, List.flatten_cons,
                List.append_assoc, Nat.add_assoc]

/-! Claim theorems. -/

/-- Claim C9: encoder initialization derives the parameter set from the
configuration exactly as specified: resolution W and H, quality-oriented
rate control, one spatial and one temporal layer, adaptive quantization and
background detection on, denoising, frame-skip and long-term reference off,
constant parameter-set id strategy, and GOP taken from the configuration
with default 10 when absent. -/
theorem encoder_parameters_derivation (cfg : Config) :
    (parameters cfg).iPicWidth = cfg.width ∧
    (parameters cfg).iPicHeight = cfg.height ∧
    (parameters cfg).iRCMode = RCMode.rcQualityMode ∧
    (parameters cfg).iSpatialLayerNum = 1 ∧
    (parameters cfg).iTemporalLayerNum = 1 ∧
    (parameters cfg).bEnableAdaptiveQuant = true ∧
    (parameters cfg).bEnableBackgroundDetection = true ∧
    (parameters cfg).bEnableDenoise = false ∧
    (parameters cfg).bEnableFrameSkip = false ∧
    (parameters cfg).bEnableLongTermReference = false ∧
    (parameters cfg).eSpsPpsIdStrategy = ParameterSetStrategy.constantId ∧
    (parameters cfg).uiIntraPeriod = GOP cfg ∧
    GOP { cfg with gopArg := none } = 10 :=
  ⟨rfl, rfl, rfl, rfl, rfl, rfl, rfl, rfl, rfl, rfl, rfl, rfl, rfl⟩

/-- Claim C10: the configuration hard-codes the frame-rate hint to 20 FPS,
the target bitrate to 2500000 bit/s and the maximum bitrate to
5000000 bit/s, for every configuration, so no input can change them. -/
theorem hardcoded_rate_constants (cfg : Config) :
    (parameters cfg).fMaxFrameRate = 20 ∧
    (parameters cfg).iTargetBitrate = 2500000 ∧
    (parameters cfg).iMaxBitrate = 5000000 :=
  ⟨rfl, rfl, rfl⟩

/-- Claim C5: for even W and H the plane pointers are at offsets 0, W*H and
W*H + (W/2)*(H/2) with strides W, W/2, W/2; in particular the code's
expression W*H + ((W*H) >> 2) equals W*H + (W/2)*(H/2). -/
theorem plane_layout (W H : Nat) (hW : Even W) (hH : Even H) :
    planeStrides W = (W, W / 2, W / 2) ∧
    planeOffsets W H = (0, W * H, W * H + (W / 2) * (H / 2)) := by
  obtain ⟨a, ha⟩ := hW
  obtain ⟨b, hb⟩ := hH
  subst ha hb
  refine ⟨rfl, ?_⟩
  have h4 : (a + a) * (b + b) = 4 * (a * b) := by ring
  have hs : ((a + a) * (b + b)) >>> 2 = a * b := by
    rw [Nat.shiftRight_eq_div_pow, h4]
    omega
  have hW2 : (a + a) / 2 = a := by omega
  have hH2 : (b + b) / 2 = b := by omega
  simp [planeOffsets, hs, hW2, hH2]

/-- Witness for C5 at W = 2, H = 2. -/
theorem plane_layout_witness :
    Even 2 ∧ planeOffsets 2 2 = (0, 2 * 2, 2 * 2 + (2 / 2) * (2 / 2)) :=
  ⟨⟨1, rfl⟩, (plane_layout 2 2 ⟨1, rfl⟩ ⟨1, rfl⟩).2⟩

/-- Claim C3: when the encode call succeeds but classifies the frame as
Skip, the access unit is empty and no publish happens that iteration. -/
theorem skip_no_publish (W H : Nat) (o : EncodeOutcome) (buf : List Nat)
    (hok : o.result = cmResultSuccess)
    (hskip : o.frameInfo.eFrameType = EFrameType.videoFrameTypeSkip) :
    (iterationData o buf).1 = [] ∧ iterationPublish W H o buf = none := by
  have hd : (iterationData o buf).1 = [] := by
    simp [iterationData, hok, hskip]
  exact ⟨hd, by simp [iterationPublish, hd]⟩

/-- Witness for C3: a concrete successful Skip outcome. -/
theorem skip_no_publish_witness :
    (iterationData ⟨0, ⟨EFrameType.videoFrameTypeSkip, []⟩⟩
        (h264BufferInit 2 2)).1 = [] ∧
    iterationPublish 2 2 ⟨0, ⟨EFrameType.videoFrameTypeSkip, []⟩⟩
        (h264BufferInit 2 2) = none :=
  skip_no_publish 2 2 ⟨0, ⟨EFrameType.videoFrameTypeSkip, []⟩⟩
    (h264BufferInit 2 2) rfl rfl

/-- Claim C4: when the encode call returns an error status the frame is
dropped: the scratch buffer is untouched (no assembly), the data is empty,
no publish happens, and the loop proceeds with the next input. -/
theorem encode_error_drops_frame (W H : Nat) (o : EncodeOutcome)
    (buf : List Nat) (rest : List IterInput)
    (herr : o.result ≠ cmResultSuccess) :
    iterationData o buf = ([], buf) ∧
    iterationPublish W H o buf = none ∧
    runLoop W H ({ valid := true, running := true, outcome := o } :: rest) buf =
      iterEvents W H o buf ++ runLoop W H rest buf := by
  have hd : iterationData o buf = ([], buf) := by
    simp [iterationData, herr]
  refine ⟨hd, by simp [iterationPublish, hd], ?_⟩
  simp [runLoop, hd]

/-- Witness for C4: a concrete failing encode outcome. -/
theorem encode_error_drops_frame_witness :
    iterationData ⟨1, ⟨EFrameType.videoFrameTypeInvalid, []⟩⟩
        (h264BufferInit 2 2) = ([], h264BufferInit 2 2) ∧
    iterationPublish 2 2 ⟨1, ⟨EFrameType.videoFrameTypeInvalid, []⟩⟩
        (h264BufferInit 2 2) = none :=
  ⟨(encode_error_drops_frame 2 2 _ _ [] (by decide)).1,
   (encode_error_drops_frame 2 2 _ _ [] (by decide)).2.1⟩

/-- Claim C6: the publish, when it happens, happens at most once per
iteration, only with non-empty data, and the record carries format "h264",
width W, height H and a payload equal to the assembled access unit. -/
theorem publish_record_fields (W H : Nat) (o : EncodeOutcome) (buf : List Nat)
    (p : ImageReading) (hp : iterationPublish W H o buf = some p) :
    p.format = "h264" ∧ p.width = W ∧ p.height = H ∧
    p.data = (iterationData o buf).1 ∧ p.data ≠ [] ∧
    (iterEvents W H o buf).count Event.publishEv ≤ 1 := by
  have hcount : (iterEvents W H o buf).count Event.publishEv ≤ 1 := by
    cases h : iterationPublish W H o buf <;> simp [iterEvents, h]
  by_cases hd : (iterationData o buf).1 = []
  · simp [iterationPublish, hd] at hp
  · simp [iterationPublish, hd] at hp
    subst hp
    exact ⟨rfl, rfl, rfl, rfl, hd, hcount⟩

/-- Witness for C6: a concrete publishing iteration. -/
theorem publish_record_fields_witness :
    ({ format := "h264", width := 2, height := 2,
       data := [10, 20, 30] } : ImageReading).format = "h264" :=
  (publish_record_fields 2 2
    ⟨0, ⟨EFrameType.videoFrameTypeIDR, [⟨[1, 2], [10, 20, 30]⟩]⟩⟩
    (h264BufferInit 2 2) _ (by decide)).1

/-- Claim C7: in every iteration the trace is wait, lock, encode, unlock,
then possibly a publish: the unlock executes exactly once on every path
(success, skip, error alike), after the lock and the encode and before any
publish, and no wait or encode follows it within the iteration. -/
theorem lock_unlock_bracket (W H : Nat) (o : EncodeOutcome) (buf : List Nat) :
    ∃ post,
      iterEvents W H o buf =
        [Event.waitEv, Event.lockEv, Event.encodeEv] ++ Event.unlockEv :: post ∧
      (iterEvents W H o buf).count Event.unlockEv = 1 ∧
      ∀ e ∈ post, e = Event.publishEv := by
  cases h : iterationPublish W H o buf with
  | none =>
      exact ⟨[], by simp [iterEvents, h], by simp [iterEvents, h], by simp⟩
  | some p =>
      exact ⟨[Event.publishEv], by simp [iterEvents, h],
        by simp [iterEvents, h], by simp⟩

/-- Claim C1: for a successful, non-skip encode outcome whose layers fit
the engine contract (each layer's bitstream buffer holds at least its
declared NAL bytes) and fit the scratch buffer, the assembled access
unit's length is the sum of all NAL lengths over all layers, and its bytes
are exactly the concatenation of the NAL payloads, layer order first, NAL
order within each layer. -/
theorem access_unit_concatenation (W H : Nat) (o : EncodeOutcome)
    (buf : List Nat)
    (hok : o.result = cmResultSuccess)
    (hskip : o.frameInfo.eFrameType ≠ EFrameType.videoFrameTypeSkip)
    (hchunk : ∀ l ∈ o.frameInfo.sLayerInfo, sizeOfLayer l ≤ l.pBsBuf.length)
    (hbound : totalSize o.frameInfo.sLayerInfo ≤ buf.length) :
    (iterationData o buf).1.length = totalSize o.frameInfo.sLayerInfo ∧
    (iterationData o buf).1 =
      (o.frameInfo.sLayerInfo.map (fun l => (nalPayloads l).flatten)).flatten := by
  have hasm := assembleLayers_spec o.frameInfo.sLayerInfo buf 0 hchunk
    (by simpa using hbound)
  have hflat : (o.frameInfo.sLayerInfo.map (fun l => (nalPayloads l).flatten)) =
      o.frameInfo.sLayerInfo.map layerChunk := by
    exact List.map_congr_left (fun l _ => nalPayloads_flatten l)
  have hlen : ((o.frameInfo.sLayerInfo.map layerChunk).flatten).length =
      totalSize o.frameInfo.sLayerInfo := chunks_flatten_length _ hchunk
  have hdata : (iterationData o buf).1 =
      if 0 < totalSize o.frameInfo.sLayerInfo then
        ((o.frameInfo.sLayerInfo.map layerChunk).flatten ++
          buf.drop (totalSize o.frameInfo.sLayerInfo)).take
            (totalSize o.frameInfo.sLayerInfo)
      else [] := by
    simp only [iterationData, hok, if_pos rfl, if_neg hskip, assembleLayers]
    rw [hasm]
    simp
  by_cases hpos : 0 < totalSize o.frameInfo.sLayerInfo
  · have htake : ((o.frameInfo.sLayerInfo.map layerChunk).flatten ++
        buf.drop (totalSize o.frameInfo.sLayerInfo)).take
          (totalSize o.frameInfo.sLayerInfo) =
        (o.frameInfo.sLayerInfo.map layerChunk).flatten :=
      List.take_left' hlen
    rw [hdata, if_pos hpos, htake, hflat]
    exact ⟨hlen, rfl⟩
  · have hzero : totalSize o.frameInfo.sLayerInfo = 0 := by omega
    have hnil : (o.frameInfo.sLayerInfo.map layerChunk).flatten = [] :=
      List.length_eq_zero.mp (by rw [hlen, hzero])
    rw [hdata, if_neg hpos, hflat, hnil]
    simp [hzero]

/-- Witness for C1: a successful IDR outcome with one layer of two NAL
units of lengths 1 and 2, at W = 2, H = 2. -/
theorem access_unit_concatenation_witness :
    (iterationData ⟨0, ⟨EFrameType.videoFrameTypeIDR, [⟨[1, 2], [10, 20, 30]⟩]⟩⟩
        (h264BufferInit 2 2)).1 =
      ([⟨[1, 2], [10, 20, 30]⟩].map
        (fun l => (nalPayloads l).flatten)).flatten :=
  (access_unit_concatenation 2 2
    ⟨0, ⟨EFrameType.videoFrameTypeIDR, [⟨[1, 2], [10, 20, 30]⟩]⟩⟩
    (h264BufferInit 2 2) rfl (by decide) (by decide) (by decide)).2

/-- Claim C2 counterexample: at W = 2, H = 2 the scratch buffer is
initialized with W*H = 4 bytes, which is not the raw-frame byte count
W*H*3/2 = 6, refuting the claimed sizing. -/
theorem scratch_buffer_size_counterexample :
    (h264BufferInit 2 2).length = 4 ∧ 2 * 2 * 3 / 2 = 6 ∧ (4 : Nat) ≠ 6 := by
  decide

/-- Claim C2 (amended): the scratch buffer is sized at initialization to
W*H bytes (not the raw-frame byte count W*H*3/2), and any one NAL payload
copy — the copy of the layer `l` arriving after the layers `pre` — stays
within the buffer's bounds provided the total assembled size fits the
buffer; the code itself performs no such bound check. -/
theorem scratch_buffer_bounds (W H : Nat) (pre post : List SLayerBSInfo)
    (l : SLayerBSInfo)
    (hbound : totalSize (pre ++ l :: post) ≤ (h264BufferInit W H).length) :
    (h264BufferInit W H).length = W * H ∧
    totalSize pre + sizeOfLayer l ≤ W * H := by
  have hsz : (h264BufferInit W H).length = W * H := by simp [h264BufferInit]
  have h1 : totalSize (pre ++ l :: post) =
      totalSize pre + (sizeOfLayer l + totalSize post) := by
    rw [totalSize_append, totalSize_cons]
  rw [hsz, h1] at hbound
  exact ⟨hsz, by omega⟩

/-- Witness for C2 (amended): one in-bounds layer at W = 2, H = 2. -/
theorem scratch_buffer_bounds_witness :
    (h264BufferInit 2 2).length = 2 * 2 ∧
    totalSize [] + sizeOfLayer ⟨[1, 2], [10, 20, 30]⟩ ≤ 2 * 2 :=
  scratch_buffer_bounds 2 2 [] [] ⟨[1, 2], [10, 20, 30]⟩ (by decide)

/-- Claim C8: once `valid()` turns false (and stays false, the producer
having detached), the loop terminates at the very next condition check:
the trace of a run whose input stream ends in invalid cycles equals the
trace of the run cut at the first invalid cycle, so no further `wait` and
no further `encode` happens from that point on. -/
theorem loop_stops_when_invalid (W H : Nat) (xs ys : List IterInput)
    (buf : List Nat) (hys : ∀ i ∈ ys, i.valid = false) :
    runLoop W H (xs ++ ys) buf = runLoop W H xs buf ∧
    (runLoop W H (xs ++ ys) buf).count Event.encodeEv =
      (runLoop W H xs buf).count Event.encodeEv := by
  have heq : runLoop W H (xs ++ ys) buf = runLoop W H xs buf := by
    induction xs generalizing buf with
    | nil =>
        cases ys with
        | nil => rfl
        | cons y rest =>
            have hy : y.valid = false := hys y (by simp)
            simp [runLoop, hy]
    | cons x xs ih =>
        by_cases hx : (x.valid && x.running) = true
        · simp [runLoop, hx, ih]
        · simp [runLoop, hx]
  exact ⟨heq, by rw [heq]⟩

/-- Witness for C8: one valid cycle followed by one invalid cycle. -/
theorem loop_stops_when_invalid_witness :
    runLoop 2 2
      ([⟨true, true, ⟨1, ⟨EFrameType.videoFrameTypeInvalid, []⟩⟩⟩] ++
        [⟨false, true, ⟨0, ⟨EFrameType.videoFrameTypeIDR, []⟩⟩⟩])
      (h264BufferInit 2 2) =
    runLoop 2 2 [⟨true, true, ⟨1, ⟨EFrameType.videoFrameTypeInvalid, []⟩⟩⟩]
      (h264BufferInit 2 2) :=
  (loop_stops_when_invalid 2 2
    [⟨true, true, ⟨1, ⟨EFrameType.videoFrameTypeInvalid, []⟩⟩⟩]
    [⟨false, true, ⟨0, ⟨EFrameType.videoFrameTypeIDR, []⟩⟩⟩]
    (h264BufferInit 2 2) (by decide)).1

end OpendlvH264
